import Mathlib

/-!
Verification of the NVVM annotation-cache layer (`NVPTXUtilities.cpp`).

The development shallowly embeds the annotation data model and the cache
operations of the source file.  Metadata operands become an inductive type,
`std::map`s become association lists with the same observable operations
(`find`, `operator[]` with default insertion, `erase`, assignment), and the
debug-build `assert` semantics is captured by computing in `Except Unit`:
a structural-precondition violation is `Except.error ()`.
-/

set_option maxHeartbeats 1000000
set_option synthInstance.maxSize 2000
set_option synthInstance.maxHeartbeats 1000000

namespace NVPTX

/-- Operand of an annotation metadata node: a metadata string, a constant
integer (its zero-extended value), a reference to a global value (identified
by a numeric identity), or anything else, including a null reference left
behind by dead-code elimination. -/
inductive MDOperand : Type
  | str (s : String)
  | int (v : Nat)
  | global (g : Nat)
  | null
  deriving DecidableEq

/-- Models `mdconst::dyn_extract<ConstantInt>`: succeeds exactly on a
constant-integer operand. -/
def extractInt : MDOperand → Option Nat
  | MDOperand.int v => some v
  | _ => none

/-- Models `dyn_cast<MDString>` viewed as a test. -/
def isStrOp : MDOperand → Bool
  | MDOperand.str _ => true
  | _ => false

/-- Models `mdconst::dyn_extract_or_null<GlobalValue>(elem->getOperand(0))`:
the subject entity of an annotation record, when operand 0 references a
global value. -/
def subjectOf (r : List MDOperand) : Option Nat :=
  match r with
  | MDOperand.global g :: _ => some g
  | _ => none

/-- `key_val_pair_t`: per-entity map from property name to the accumulated
value sequence. -/
abbrev PropMap : Type := List (String × List Nat)

/-- `std::map::find`, as an association-list lookup. -/
def lookupA {κ α : Type} [DecidableEq κ] : List (κ × α) → κ → Option α
  | [], _ => none
  | (k', v) :: rest, k => if k' = k then some v else lookupA rest k

/-- `map[k] = v` assignment: update in place, or append a fresh entry. -/
def setA {κ α : Type} [DecidableEq κ] : List (κ × α) → κ → α → List (κ × α)
  | [], k, v => [(k, v)]
  | (k', v') :: rest, k, v =>
    if k' = k then (k', v) :: rest else (k', v') :: setA rest k v

/-- `std::map::operator[]` read access: returns the stored value, inserting a
default-constructed one when the key is absent. -/
def getOrInsertA {κ α : Type} [DecidableEq κ] : List (κ × α) → κ → α → α × List (κ × α)
  | [], k, d => (d, [(k, d)])
  | (k', v') :: rest, k, d =>
    if k' = k then (v', (k', v') :: rest)
    else
      let r := getOrInsertA rest k d
      (r.1, (k', v') :: r.2)

/-- `std::map::erase(key)`. -/
def eraseA {κ α : Type} [DecidableEq κ] : List (κ × α) → κ → List (κ × α)
  | [], _ => []
  | (k', v) :: rest, k => if k' = k then eraseA rest k else (k', v) :: eraseA rest k

/-- The body of the property loop: `retval[keyname].push_back(v)` when the key
exists, `retval[keyname] = {v}` otherwise. -/
def PropMap.append1 : PropMap → String → Nat → PropMap
  | [], k, v => [(k, [v])]
  | (k', vs) :: rest, k, v =>
    if k' = k then (k', vs ++ [v]) :: rest else (k', vs) :: PropMap.append1 rest k v

/-- `global_val_annot_t`: map from entity identity to its property map. -/
abbrev GMap : Type := List (Nat × PropMap)

/-- The module-keyed cache map. -/
abbrev CacheMap : Type := List (Nat × GMap)

/-- A module: an identity and the optional named metadata list
`nvvm.annotations`, each record being a flat operand list. -/
structure Module where
  id : Nat
  nvvmAnnotations : Option (List (List MDOperand))
  deriving DecidableEq

/-- The process-wide `AnnotationCache`, instrumented with a counter of
population scans (calls of the module-level `cacheAnnotationFromMD`). -/
structure AnnotationCache where
  cache : CacheMap
  scanCount : Nat
  deriving DecidableEq

/-- The pair loop of `cacheAnnotationFromMD(const MDNode *, key_val_pair_t &)`:
walks the operands after the subject two at a time; a name position that is
not a metadata string, or a value position that is not a constant integer,
violates an assertion. -/
def readPairs : List MDOperand → PropMap → Except Unit PropMap
  | [], retval => Except.ok retval
  | [_], retval => Except.ok retval
  | p :: v :: rest, retval =>
    match p with
    | MDOperand.str s =>
      match extractInt v with
      | some n => readPairs rest (PropMap.append1 retval s n)
      | none => Except.error ()
    | _ => Except.error ()

/-- `cacheAnnotationFromMD(const MDNode *md, key_val_pair_t &retval)`: asserts
an odd operand count, then accumulates the (name, value) pairs starting at
operand 1. -/
def cacheAnnotationFromMD_rec (md : List MDOperand) (retval : PropMap) : Except Unit PropMap :=
  if md.length % 2 = 1 then readPairs (List.drop 1 md) retval else Except.error ()

/-- The record loop of the module-level `cacheAnnotationFromMD`: records whose
subject is null or differs from the requested entity are skipped; matching
records are fed to the record-level reader. -/
def scanRecords : List (List MDOperand) → Nat → PropMap → Except Unit PropMap
  | [], _, acc => Except.ok acc
  | r :: rest, gv, acc =>
    match subjectOf r with
    | some e =>
      if e = gv then
        match cacheAnnotationFromMD_rec r acc with
        | Except.error er => Except.error er
        | Except.ok acc2 => scanRecords rest gv acc2
      else scanRecords rest gv acc
    | none => scanRecords rest gv acc

/-- `cacheAnnotationFromMD(const Module *m, const GlobalValue *gv)`: scan the
`nvvm.annotations` list for `gv` and store the accumulated map under
`(m, gv)` — only when it is non-empty.  Every call bumps the scan counter. -/
def cacheAnnotationFromMD_mod (m : Module) (gv : Nat) (st : AnnotationCache) :
    Except Unit AnnotationCache :=
  match m.nvvmAnnotations with
  | none => Except.ok { st with scanCount := st.scanCount + 1 }
  | some recs =>
    match scanRecords recs gv [] with
    | Except.error er => Except.error er
    | Except.ok tmp =>
      if tmp.isEmpty then Except.ok { st with scanCount := st.scanCount + 1 }
      else
        Except.ok
          { cache := setA st.cache m.id (setA ((lookupA st.cache m.id).getD []) gv tmp),
            scanCount := st.scanCount + 1 }

/-- `clearAnnotationCache(const Module *Mod)`: erase the module's entry. -/
def clearAnnotationCache (m : Module) (st : AnnotationCache) : AnnotationCache :=
  { st with cache := eraseA st.cache m.id }

/-- `findOneNVVMAnnotation`: populate on miss, then read the first stored
value for the property through `AC.Cache[m][gv]`, whose `operator[]` accesses
insert default-constructed entries when absent. -/
def findOneNVVMAnnot (m : Module) (gv : Nat) (prop : String) (st : AnnotationCache) :
    Except Unit (Option Nat × AnnotationCache) :=
  match
    (match lookupA st.cache m.id with
     | none => cacheAnnotationFromMD_mod m gv st
     | some gm =>
       match lookupA gm gv with
       | none => cacheAnnotationFromMD_mod m gv st
       | some _ => Except.ok st) with
  | Except.error er => Except.error er
  | Except.ok st1 =>
    let r1 := getOrInsertA st1.cache m.id ([] : GMap)
    let r2 := getOrInsertA r1.1 gv ([] : PropMap)
    let st2 : AnnotationCache := { st1 with cache := setA r1.2 m.id r2.2 }
    match lookupA r2.1 prop with
    | none => Except.ok (none, st2)
    | some vs => Except.ok (some (List.getD vs 0 0), st2)

/-- `findAllNVVMAnnotation`: same population logic, returning the whole
accumulated sequence. -/
def findAllNVVMAnnot (m : Module) (gv : Nat) (prop : String) (st : AnnotationCache) :
    Except Unit (Option (List Nat) × AnnotationCache) :=
  match
    (match lookupA st.cache m.id with
     | none => cacheAnnotationFromMD_mod m gv st
     | some gm =>
       match lookupA gm gv with
       | none => cacheAnnotationFromMD_mod m gv st
       | some _ => Except.ok st) with
  | Except.error er => Except.error er
  | Except.ok st1 =>
    let r1 := getOrInsertA st1.cache m.id ([] : GMap)
    let r2 := getOrInsertA r1.1 gv ([] : PropMap)
    let st2 : AnnotationCache := { st1 with cache := setA r1.2 m.id r2.2 }
    match lookupA r2.1 prop with
    | none => Except.ok (none, st2)
    | some vs => Except.ok (some vs, st2)

/-- Lookup of an entity's cached property map, through both cache levels. -/
def lookup2 (c : CacheMap) (mid gvid : Nat) : Option PropMap :=
  match lookupA c mid with
  | none => none
  | some gm => lookupA gm gvid

/-- The population scan alone (no cache interaction): what the module-level
`cacheAnnotationFromMD` accumulates for an entity. -/
def scanEntityM (m : Module) (gv : Nat) : Except Unit PropMap :=
  match m.nvvmAnnotations with
  | none => Except.ok []
  | some recs => scanRecords recs gv []

/-- The cache state after a lookup that had to populate and whose scan
accumulated `pm` for the entity: one more scan, and (even when `pm` is empty,
thanks to the `operator[]` accesses) `pm` stored under `(m, gv)`. -/
def postState (m : Module) (gv : Nat) (pm : PropMap) (st : AnnotationCache) : AnnotationCache :=
  { cache := setA st.cache m.id (setA ((lookupA st.cache m.id).getD []) gv pm),
    scanCount := st.scanCount + 1 }

/-- `CallingConv::PTX_Kernel` (the GPU kernel calling convention tag). -/
def PTX_Kernel : Nat := 71

/-- A function: its global-value identity, parent module, declared calling
convention, and the structured per-index stack-alignment attribute
(`getAttributes(Index).getStackAlignment()`). -/
structure Function where
  gid : Nat
  mod : Module
  callingConv : Nat
  attrStackAlign : Nat → Option Nat

/-- `isKernelFunction`: the "kernel" annotation decides when present
(first value compared with 1); without it, the calling convention decides. -/
def isKernelFunction (F : Function) (st : AnnotationCache) :
    Except Unit (Bool × AnnotationCache) :=
  match findOneNVVMAnnot F.mod F.gid "kernel" st with
  | Except.error er => Except.error er
  | Except.ok (none, st1) => Except.ok (decide (F.callingConv = PTX_Kernel), st1)
  | Except.ok (some x, st1) => Except.ok (decide (x = 1), st1)

/-- The loop of the function-level `getAlign` over the legacy "align" values:
exhaustive scan, first packed value whose high bits equal the index wins. -/
def funcAlignScan : List Nat → Nat → Option Nat
  | [], _ => none
  | V :: rest, Index =>
    if V >>> 16 = Index then some (V &&& 65535) else funcAlignScan rest Index

/-- `getAlign(const Function &, unsigned)`: the structured stack-alignment
attribute wins; otherwise the legacy "align" annotation list is scanned. -/
def getAlign (F : Function) (Index : Nat) (st : AnnotationCache) :
    Except Unit (Option Nat × AnnotationCache) :=
  match F.attrStackAlign Index with
  | some a => Except.ok (some a, st)
  | none =>
    match findAllNVVMAnnot F.mod F.gid "align" st with
    | Except.error er => Except.error er
    | Except.ok (none, st1) => Except.ok (none, st1)
    | Except.ok (some Vs, st1) => Except.ok (funcAlignScan Vs Index, st1)

/-- A call instruction: the structured per-index stack-alignment attribute and
the optional "callalign" metadata node. -/
structure CallInst where
  attrStackAlign : Nat → Option Nat
  callalign : Option (List MDOperand)

/-- The loop of the call-site `getAlign` over the "callalign" operands:
non-integer operands are skipped; a packed value whose high bits equal the
index wins; one whose high bits exceed the index stops the scan. -/
def callAlignScan : List MDOperand → Nat → Option Nat
  | [], _ => none
  | op :: rest, Index =>
    match extractInt op with
    | some V =>
      if V >>> 16 = Index then some (V &&& 65535)
      else if Index < V >>> 16 then none
      else callAlignScan rest Index
    | none => callAlignScan rest Index

/-- `getAlign(const CallInst &, unsigned)`. -/
def getAlignCall (I : CallInst) (Index : Nat) : Option Nat :=
  match I.attrStackAlign Index with
  | some a => some a
  | none =>
    match I.callalign with
    | some ops => callAlignScan ops Index
    | none => none

/-- A value as classified by the predicates: a global value, a function
argument (carrying its parent function's identity, module and its own
position), or anything else. -/
inductive Value : Type
  | global (gid : Nat) (mod : Module)
  | arg (fgid : Nat) (mod : Module) (argNo : Nat)
  | other
  deriving DecidableEq

/-- `isTexture`: on a global value, a found "texture" annotation must be 1
(assertion) and yields true; absence yields false. -/
def isTexture (val : Value) (st : AnnotationCache) : Except Unit (Bool × AnnotationCache) :=
  match val with
  | Value.global gid mod =>
    match findOneNVVMAnnot mod gid "texture" st with
    | Except.error er => Except.error er
    | Except.ok (some annot, st1) =>
      if annot = 1 then Except.ok (true, st1) else Except.error ()
    | Except.ok (none, st1) => Except.ok (false, st1)
  | _ => Except.ok (false, st)

/-- `isSurface`. -/
def isSurface (val : Value) (st : AnnotationCache) : Except Unit (Bool × AnnotationCache) :=
  match val with
  | Value.global gid mod =>
    match findOneNVVMAnnot mod gid "surface" st with
    | Except.error er => Except.error er
    | Except.ok (some annot, st1) =>
      if annot = 1 then Except.ok (true, st1) else Except.error ()
    | Except.ok (none, st1) => Except.ok (false, st1)
  | _ => Except.ok (false, st)

/-- `isManaged`. -/
def isManaged (val : Value) (st : AnnotationCache) : Except Unit (Bool × AnnotationCache) :=
  match val with
  | Value.global gid mod =>
    match findOneNVVMAnnot mod gid "managed" st with
    | Except.error er => Except.error er
    | Except.ok (some annot, st1) =>
      if annot = 1 then Except.ok (true, st1) else Except.error ()
    | Except.ok (none, st1) => Except.ok (false, st1)
  | _ => Except.ok (false, st)

/-- `isSampler`: a global with a "sampler" annotation (asserted to be 1), or
an argument whose position occurs in its function's "sampler" value list. -/
def isSampler (val : Value) (st : AnnotationCache) : Except Unit (Bool × AnnotationCache) :=
  match val with
  | Value.global gid mod =>
    match findOneNVVMAnnot mod gid "sampler" st with
    | Except.error er => Except.error er
    | Except.ok (some annot, st1) =>
      if annot = 1 then Except.ok (true, st1) else Except.error ()
    | Except.ok (none, st1) => Except.ok (false, st1)
  | Value.arg fgid mod argNo =>
    match findAllNVVMAnnot mod fgid "sampler" st with
    | Except.error er => Except.error er
    | Except.ok (some annot, st1) => Except.ok (annot.contains argNo, st1)
    | Except.ok (none, st1) => Except.ok (false, st1)
  | _ => Except.ok (false, st)

/-- `isImageReadOnly`: an argument whose position occurs in its function's
"rdoimage" value list. -/
def isImageReadOnly (val : Value) (st : AnnotationCache) :
    Except Unit (Bool × AnnotationCache) :=
  match val with
  | Value.arg fgid mod argNo =>
    match findAllNVVMAnnot mod fgid "rdoimage" st with
    | Except.error er => Except.error er
    | Except.ok (some annot, st1) => Except.ok (annot.contains argNo, st1)
    | Except.ok (none, st1) => Except.ok (false, st1)
  | _ => Except.ok (false, st)

/-- `isImageWriteOnly`. -/
def isImageWriteOnly (val : Value) (st : AnnotationCache) :
    Except Unit (Bool × AnnotationCache) :=
  match val with
  | Value.arg fgid mod argNo =>
    match findAllNVVMAnnot mod fgid "wroimage" st with
    | Except.error er => Except.error er
    | Except.ok (some annot, st1) => Except.ok (annot.contains argNo, st1)
    | Except.ok (none, st1) => Except.ok (false, st1)
  | _ => Except.ok (false, st)

/-- `isImageReadWrite`. -/
def isImageReadWrite (val : Value) (st : AnnotationCache) :
    Except Unit (Bool × AnnotationCache) :=
  match val with
  | Value.arg fgid mod argNo =>
    match findAllNVVMAnnot mod fgid "rdwrimage" st with
    | Except.error er => Except.error er
    | Except.ok (some annot, st1) => Except.ok (annot.contains argNo, st1)
    | Except.ok (none, st1) => Except.ok (false, st1)
  | _ => Except.ok (false, st)

/-- Specification-level extraction of the (name, value) pairs of a record
body: well-formed adjacent pairs in order.  Used to state, independently of
the map-based accumulation of the code, what the reader collects. -/
def pairsOf : List MDOperand → List (String × Nat)
  | MDOperand.str s :: MDOperand.int n :: rest => (s, n) :: pairsOf rest
  | _ :: _ :: rest => pairsOf rest
  | _ => []

/-- Specification-level value sequence of one property name in a record
body, in encounter order. -/
def valuesOf (k : String) (l : List MDOperand) : List Nat :=
  (pairsOf l).filterMap (fun p => if p.1 = k then some p.2 else none)

/-- Specification-level accumulated values of one property for one entity
over a record list: records are filtered to the entity's subject and their
pair values concatenated in encounter order. -/
def specEntityValues (gv : Nat) (k : String) (recs : List (List MDOperand)) : List Nat :=
  (recs.filter (fun r => decide (subjectOf r = some gv))).flatMap
    (fun r => valuesOf k (List.drop 1 r))

/-- Written from the specification text: the value sequence `lookupAll` must
return for a property — the values recorded for the entity in the module's
annotation list, in record-encounter order ("the full accumulated sequence");
`lookup` must return its first element. -/
def specLookupAll (m : Module) (gv : Nat) (prop : String) : List Nat :=
  match m.nvvmAnnotations with
  | none => []
  | some recs => specEntityValues gv prop recs

/-- Appending a value sequence to an optional stored sequence: the shape of
one property's entry after more values are accumulated ("absent" only when
nothing was there and nothing is added). -/
def optAppend : Option (List Nat) → List Nat → Option (List Nat)
  | o, [] => o
  | o, vs => some (o.getD [] ++ vs)

/-- Structural well-formedness of a record body: names and integer values
strictly alternating. -/
def wfPairs : List MDOperand → Bool
  | [] => true
  | [_] => true
  | p :: v :: rest => isStrOp p && (extractInt v).isSome && wfPairs rest

theorem lookupA_setA_self {κ α : Type} [DecidableEq κ] (l : List (κ × α)) (k : κ) (v : α) :
    lookupA (setA l k v) k = some v := by
  induction l with
  | nil => simp [setA, lookupA]
  | cons hd tl ih =>
    obtain ⟨k', v'⟩ := hd
    by_cases h : k' = k
    · simp [setA, lookupA, h]
    · simp [setA, lookupA, h, ih]

theorem lookupA_setA_ne {κ α : Type} [DecidableEq κ] (l : List (κ × α)) (k j : κ) (v : α)
    (hjk : j ≠ k) : lookupA (setA l k v) j = lookupA l j := by
  have hkj : ¬ k = j := Ne.symm hjk
  induction l with
  | nil => simp [setA, lookupA, hkj]
  | cons hd tl ih =>
    obtain ⟨k', v'⟩ := hd
    by_cases h : k' = k
    · subst h
      simp [setA, lookupA, hkj]
    · simp [setA, lookupA, h, ih]

theorem setA_of_lookupA_eq {κ α : Type} [DecidableEq κ] (l : List (κ × α)) (k : κ) (v : α)
    (h : lookupA l k = some v) : setA l k v = l := by
  induction l with
  | nil => simp [lookupA] at h
  | cons hd tl ih =>
    obtain ⟨k', v'⟩ := hd
    by_cases hk : k' = k
    · subst hk
      simp [lookupA] at h
      simp [setA, h]
    · simp [lookupA, hk] at h
      simp [setA, hk, ih h]

theorem setA_of_lookupA_none {κ α : Type} [DecidableEq κ] (l : List (κ × α)) (k : κ) (v : α)
    (h : lookupA l k = none) : setA l k v = l ++ [(k, v)] := by
  induction l with
  | nil => simp [setA]
  | cons hd tl ih =>
    obtain ⟨k', v'⟩ := hd
    by_cases hk : k' = k
    · simp [lookupA, hk] at h
    · simp [lookupA, hk] at h
      simp [setA, hk, ih h]

theorem setA_setA {κ α : Type} [DecidableEq κ] (l : List (κ × α)) (k : κ) (v w : α) :
    setA (setA l k v) k w = setA l k w := by
  induction l with
  | nil => simp [setA]
  | cons hd tl ih =>
    obtain ⟨k', v'⟩ := hd
    by_cases hk : k' = k
    · simp [setA, hk]
    · simp [setA, hk, ih]

theorem getOrInsertA_of_lookupA_eq {κ α : Type} [DecidableEq κ] (l : List (κ × α)) (k : κ)
    (v d : α) (h : lookupA l k = some v) : getOrInsertA l k d = (v, l) := by
  induction l with
  | nil => simp [lookupA] at h
  | cons hd tl ih =>
    obtain ⟨k', v'⟩ := hd
    by_cases hk : k' = k
    · subst hk
      simp [lookupA] at h
      simp [getOrInsertA, h]
    · simp [lookupA, hk] at h
      simp [getOrInsertA, hk, ih h]

theorem getOrInsertA_of_lookupA_none {κ α : Type} [DecidableEq κ] (l : List (κ × α)) (k : κ)
    (d : α) (h : lookupA l k = none) : getOrInsertA l k d = (d, l ++ [(k, d)]) := by
  induction l with
  | nil => simp [getOrInsertA]
  | cons hd tl ih =>
    obtain ⟨k', v'⟩ := hd
    by_cases hk : k' = k
    · simp [lookupA, hk] at h
    · simp [lookupA, hk] at h
      simp [getOrInsertA, hk, ih h]

theorem lookupA_eraseA_self {κ α : Type} [DecidableEq κ] (l : List (κ × α)) (k : κ) :
    lookupA (eraseA l k) k = none := by
  induction l with
  | nil => simp [eraseA, lookupA]
  | cons hd tl ih =>
    obtain ⟨k', v'⟩ := hd
    by_cases hk : k' = k
    · simp [eraseA, hk, ih]
    · simp [eraseA, lookupA, hk, ih]

theorem lookupA_eraseA_ne {κ α : Type} [DecidableEq κ] (l : List (κ × α)) (k j : κ)
    (hjk : j ≠ k) : lookupA (eraseA l k) j = lookupA l j := by
  have hkj : ¬ k = j := Ne.symm hjk
  induction l with
  | nil => simp [eraseA]
  | cons hd tl ih =>
    obtain ⟨k', v'⟩ := hd
    by_cases hk : k' = k
    · subst hk
      simp [eraseA, lookupA, ih, hkj]
    · simp [eraseA, lookupA, hk, ih]

theorem eraseA_of_lookupA_none {κ α : Type} [DecidableEq κ] (l : List (κ × α)) (k : κ)
    (h : lookupA l k = none) : eraseA l k = l := by
  induction l with
  | nil => simp [eraseA]
  | cons hd tl ih =>
    obtain ⟨k', v'⟩ := hd
    by_cases hk : k' = k
    · simp [lookupA, hk] at h
    · simp [lookupA, hk] at h
      simp [eraseA, hk, ih h]

theorem optAppend_nil (o : Option (List Nat)) : optAppend o [] = o := rfl

theorem optAppend_cons (o : Option (List Nat)) (v : Nat) (vs : List Nat) :
    optAppend o (v :: vs) = some (o.getD [] ++ v :: vs) := rfl

theorem optAppend_append (o : Option (List Nat)) (vs ws : List Nat) :
    optAppend (optAppend o vs) ws = optAppend o (vs ++ ws) := by
  cases vs with
  | nil => rfl
  | cons v vs' =>
    cases ws with
    | nil => simp [optAppend]
    | cons w ws' => simp [optAppend, List.append_assoc]

theorem lookupA_append1 (m : PropMap) (s k : String) (n : Nat) :
    lookupA (PropMap.append1 m s n) k =
      if s = k then some ((lookupA m k).getD [] ++ [n]) else lookupA m k := by
  induction m with
  | nil =>
    by_cases h : s = k <;> simp [PropMap.append1, lookupA, h]
  | cons hd tl ih =>
    obtain ⟨k', vs⟩ := hd
    by_cases hks : k' = s
    · subst hks
      by_cases hkk : k' = k
      · subst hkk
        simp [PropMap.append1, lookupA]
      · simp [PropMap.append1, lookupA, hkk]
    · by_cases hkk : k' = k
      · subst hkk
        have hsk : ¬ s = k' := fun h => hks h.symm
        simp [PropMap.append1, lookupA, hks, hsk]
      · simp [PropMap.append1, lookupA, hks, hkk, ih]

theorem readPairs_find : ∀ (ops : List MDOperand) (m m' : PropMap),
    readPairs ops m = Except.ok m' →
    ∀ k, lookupA m' k = optAppend (lookupA m k) (valuesOf k ops)
  | [], m, m', h, k => by
    simp [readPairs] at h
    subst h
    simp [valuesOf, pairsOf, optAppend_nil]
  | [p], m, m', h, k => by
    simp [readPairs] at h
    subst h
    cases p <;> simp [valuesOf, pairsOf, optAppend_nil]
  | p :: v :: rest, m, m', h, k => by
    cases p with
    | str s =>
      cases v with
      | int n =>
        simp [readPairs, extractInt] at h
        have ih := readPairs_find rest (PropMap.append1 m s n) m' h k
        rw [ih, lookupA_append1]
        by_cases hsk : s = k
        · subst hsk
          have hv : valuesOf s (MDOperand.str s :: MDOperand.int n :: rest)
              = n :: valuesOf s rest := by
            simp [valuesOf, pairsOf]
          rw [hv, if_pos rfl, ← optAppend_cons (lookupA m s) n [], optAppend_append,
            List.singleton_append]
        · have hv : valuesOf k (MDOperand.str s :: MDOperand.int n :: rest)
              = valuesOf k rest := by
            simp [valuesOf, pairsOf, hsk]
          rw [hv, if_neg hsk]
      | str s2 => simp [readPairs, extractInt] at h
      | global g => simp [readPairs, extractInt] at h
      | null => simp [readPairs, extractInt] at h
    | int n2 => simp [readPairs] at h
    | global g => simp [readPairs] at h
    | null => simp [readPairs] at h

theorem readPairs_error_iff : ∀ (ops : List MDOperand) (m : PropMap),
    (readPairs ops m = Except.error () ↔ wfPairs ops = false)
  | [], m => by simp [readPairs, wfPairs]
  | [p], m => by simp [readPairs, wfPairs]
  | p :: v :: rest, m => by
    cases p with
    | str s =>
      cases hv : extractInt v with
      | some n =>
        simp [readPairs, hv, wfPairs, isStrOp,
          readPairs_error_iff rest (PropMap.append1 m s n)]
      | none => simp [readPairs, hv, wfPairs, isStrOp]
    | int n2 => simp [readPairs, wfPairs, isStrOp]
    | global g => simp [readPairs, wfPairs, isStrOp]
    | null => simp [readPairs, wfPairs, isStrOp]

theorem wfPairs_false_iff : ∀ (ops : List MDOperand), ops.length % 2 = 0 →
    (wfPairs ops = false ↔
      ((∃ j op, j % 2 = 0 ∧ ops[j]? = some op ∧ isStrOp op = false)
        ∨ (∃ j op, j % 2 = 1 ∧ ops[j]? = some op ∧ extractInt op = none)))
  | [], _ => by simp [wfPairs]
  | [p], h => by simp at h
  | p :: v :: rest, h => by
    have hr : rest.length % 2 = 0 := by
      simp only [List.length_cons] at h
      omega
    have ih := wfPairs_false_iff rest hr
    constructor
    · intro hw
      by_cases hp : isStrOp p = false
      · exact Or.inl ⟨0, p, by simp, by simp, hp⟩
      · by_cases hvv : extractInt v = none
        · exact Or.inr ⟨1, v, by simp, by simp, hvv⟩
        · have hpt : isStrOp p = true := by
            revert hp
            cases isStrOp p <;> simp
          have hvt : (extractInt v).isSome = true := by
            revert hvv
            cases extractInt v <;> simp
          have hw' : wfPairs rest = false := by
            simpa [wfPairs, hpt, hvt] using hw
          rcases ih.mp hw' with ⟨j, op, hj, hget, hbad⟩ | ⟨j, op, hj, hget, hbad⟩
          · exact Or.inl ⟨j + 2, op, by omega, by simpa using hget, hbad⟩
          · exact Or.inr ⟨j + 2, op, by omega, by simpa using hget, hbad⟩
    · intro hex
      rcases hex with ⟨j, op, hj, hget, hbad⟩ | ⟨j, op, hj, hget, hbad⟩
      · cases j with
        | zero =>
          have hop : p = op := by simpa using hget
          subst hop
          simp [wfPairs, hbad]
        | succ j1 =>
          cases j1 with
          | zero => simp at hj
          | succ j2 =>
            have hget' : rest[j2]? = some op := by simpa using hget
            have hw' : wfPairs rest = false :=
              ih.mpr (Or.inl ⟨j2, op, by omega, hget', hbad⟩)
            simp [wfPairs, hw']
      · cases j with
        | zero => simp at hj
        | succ j1 =>
          cases j1 with
          | zero =>
            have hop : v = op := by simpa using hget
            subst hop
            simp [wfPairs, hbad]
          | succ j2 =>
            have hget' : rest[j2]? = some op := by simpa using hget
            have hw' : wfPairs rest = false :=
              ih.mpr (Or.inr ⟨j2, op, by omega, hget', hbad⟩)
            simp [wfPairs, hw']

theorem scanRecords_find : ∀ (recs : List (List MDOperand)) (gv : Nat) (acc pm : PropMap),
    scanRecords recs gv acc = Except.ok pm →
    ∀ k, lookupA pm k = optAppend (lookupA acc k) (specEntityValues gv k recs)
  | [], gv, acc, pm, h, k => by
    simp [scanRecords] at h
    subst h
    simp [specEntityValues, optAppend_nil]
  | r :: rest, gv, acc, pm, h, k => by
    by_cases hs : subjectOf r = some gv
    · simp only [scanRecords, hs] at h
      cases hrec : cacheAnnotationFromMD_rec r acc with
      | error er => simp [hrec] at h
      | ok acc2 =>
        simp only [hrec] at h
        have ih := scanRecords_find rest gv acc2 pm h k
        have hrp : readPairs (List.drop 1 r) acc = Except.ok acc2 := by
          by_cases hlen : r.length % 2 = 1
          · simpa [cacheAnnotationFromMD_rec, hlen] using hrec
          · simp [cacheAnnotationFromMD_rec, hlen] at hrec
        have hacc2 := readPairs_find (List.drop 1 r) acc acc2 hrp k
        rw [ih, hacc2, optAppend_append]
        have hsv : specEntityValues gv k (r :: rest)
            = valuesOf k (List.drop 1 r) ++ specEntityValues gv k rest := by
          simp [specEntityValues, hs]
        rw [hsv]
    · have h' : scanRecords rest gv acc = Except.ok pm := by
        cases hsubj : subjectOf r with
        | none => simpa [scanRecords, hsubj] using h
        | some e =>
          have hne : ¬ e = gv := by
            intro he
            exact hs (by rw [hsubj, he])
          simpa [scanRecords, hsubj, hne] using h
      have ih := scanRecords_find rest gv acc pm h' k
      rw [ih]
      have hsv : specEntityValues gv k (r :: rest) = specEntityValues gv k rest := by
        simp [specEntityValues, hs]
      rw [hsv]

theorem scanEntity_find (m : Module) (gv : Nat) (pm : PropMap)
    (h : scanEntityM m gv = Except.ok pm) (k : String) :
    lookupA pm k = optAppend none (specLookupAll m gv k) := by
  cases hm : m.nvvmAnnotations with
  | none =>
    simp [scanEntityM, hm] at h
    subst h
    simp [specLookupAll, hm, lookupA, optAppend_nil]
  | some recs =>
    have h' : scanRecords recs gv [] = Except.ok pm := by
      simpa [scanEntityM, hm] using h
    have hh := scanRecords_find recs gv [] pm h' k
    simpa [specLookupAll, hm, lookupA] using hh

theorem cacheMod_of_scan (m : Module) (gv : Nat) (pm : PropMap) (st : AnnotationCache)
    (h : scanEntityM m gv = Except.ok pm) :
    cacheAnnotationFromMD_mod m gv st =
      Except.ok (if pm.isEmpty then { st with scanCount := st.scanCount + 1 }
                 else postState m gv pm st) := by
  cases hm : m.nvvmAnnotations with
  | none =>
    simp [scanEntityM, hm] at h
    subst h
    simp [cacheAnnotationFromMD_mod, hm]
  | some recs =>
    have h' : scanRecords recs gv [] = Except.ok pm := by
      simpa [scanEntityM, hm] using h
    simp only [cacheAnnotationFromMD_mod, hm, h', postState]
    split <;> simp_all

theorem findOne_of_scan (m : Module) (gv : Nat) (prop : String) (st : AnnotationCache)
    (pm : PropMap)
    (hfresh : lookup2 st.cache m.id gv = none)
    (hscan : scanEntityM m gv = Except.ok pm) :
    findOneNVVMAnnot m gv prop st =
      Except.ok ((lookupA pm prop).map (fun vs => List.getD vs 0 0), postState m gv pm st) := by
  have hmod := cacheMod_of_scan m gv pm st hscan
  cases hm1 : lookupA st.cache m.id with
  | none =>
    cases pm with
    | nil =>
      simp only [List.isEmpty_nil, if_true] at hmod
      have e1 := getOrInsertA_of_lookupA_none st.cache m.id ([] : GMap) hm1
      have e2 : st.cache ++ [(m.id, ([] : GMap))] = setA st.cache m.id [] :=
        (setA_of_lookupA_none st.cache m.id ([] : GMap) hm1).symm
      simp [findOneNVVMAnnot, hm1, hmod, e1, e2, setA_setA, getOrInsertA, lookupA,
        postState, setA]
    | cons a pmtl =>
      simp only [List.isEmpty_cons, if_false, Bool.false_eq_true] at hmod
      have f1 : lookupA (setA st.cache m.id [(gv, a :: pmtl)]) m.id
          = some [(gv, a :: pmtl)] := lookupA_setA_self st.cache m.id [(gv, a :: pmtl)]
      have e1 := getOrInsertA_of_lookupA_eq _ m.id _ ([] : GMap) f1
      have f2 : lookupA [(gv, a :: pmtl)] gv = some (a :: pmtl) := by simp [lookupA]
      have e2 := getOrInsertA_of_lookupA_eq _ gv _ ([] : PropMap) f2
      have e3 := setA_of_lookupA_eq _ m.id _ f1
      simp only [findOneNVVMAnnot, hm1, hmod, postState, hm1, Option.getD_none] at *
      simp only [setA] at *
      simp [e1, e2, e3]
      cases hlp : lookupA (a :: pmtl) prop <;> simp [hlp]
  | some gm =>
    have hm2 : lookupA gm gv = none := by
      simpa [lookup2, hm1] using hfresh
    cases pm with
    | nil =>
      simp only [List.isEmpty_nil, if_true] at hmod
      have e1 := getOrInsertA_of_lookupA_eq st.cache m.id gm ([] : GMap) hm1
      have e2 := getOrInsertA_of_lookupA_none gm gv ([] : PropMap) hm2
      have e3 : gm ++ [(gv, ([] : PropMap))] = setA gm gv [] :=
        (setA_of_lookupA_none gm gv ([] : PropMap) hm2).symm
      simp [findOneNVVMAnnot, hm1, hm2, hmod, e1, e2, e3, postState, lookupA]
    | cons a pmtl =>
      simp only [List.isEmpty_cons, if_false, Bool.false_eq_true] at hmod
      have f1 : lookupA (setA st.cache m.id (setA gm gv (a :: pmtl))) m.id
          = some (setA gm gv (a :: pmtl)) := lookupA_setA_self st.cache m.id _
      have e1 := getOrInsertA_of_lookupA_eq _ m.id _ ([] : GMap) f1
      have f2 : lookupA (setA gm gv (a :: pmtl)) gv = some (a :: pmtl) :=
        lookupA_setA_self gm gv _
      have e2 := getOrInsertA_of_lookupA_eq _ gv _ ([] : PropMap) f2
      have e3 := setA_of_lookupA_eq _ m.id _ f1
      simp only [findOneNVVMAnnot, hm1, hm2, hmod, postState, Option.getD_some] at *
      simp [e1, e2, e3]
      cases hlp : lookupA (a :: pmtl) prop <;> simp [hlp]

theorem findOne_cached (m : Module) (gv : Nat) (prop : String) (st : AnnotationCache)
    (pm : PropMap)
    (hcached : lookup2 st.cache m.id gv = some pm) :
    findOneNVVMAnnot m gv prop st =
      Except.ok ((lookupA pm prop).map (fun vs => List.getD vs 0 0), st) := by
  cases hm1 : lookupA st.cache m.id with
  | none => simp [lookup2, hm1] at hcached
  | some gm =>
    have hm2 : lookupA gm gv = some pm := by
      simpa [lookup2, hm1] using hcached
    have e1 := getOrInsertA_of_lookupA_eq st.cache m.id gm ([] : GMap) hm1
    have e2 := getOrInsertA_of_lookupA_eq gm gv pm ([] : PropMap) hm2
    have e3 := setA_of_lookupA_eq st.cache m.id gm hm1
    simp [findOneNVVMAnnot, hm1, hm2, e1, e2, e3]
    cases hlp : lookupA pm prop <;> simp [hlp]

theorem findAll_of_scan (m : Module) (gv : Nat) (prop : String) (st : AnnotationCache)
    (pm : PropMap)
    (hfresh : lookup2 st.cache m.id gv = none)
    (hscan : scanEntityM m gv = Except.ok pm) :
    findAllNVVMAnnot m gv prop st =
      Except.ok (lookupA pm prop, postState m gv pm st) := by
  have hmod := cacheMod_of_scan m gv pm st hscan
  cases hm1 : lookupA st.cache m.id with
  | none =>
    cases pm with
    | nil =>
      simp only [List.isEmpty_nil, if_true] at hmod
      have e1 := getOrInsertA_of_lookupA_none st.cache m.id ([] : GMap) hm1
      have e2 : st.cache ++ [(m.id, ([] : GMap))] = setA st.cache m.id [] :=
        (setA_of_lookupA_none st.cache m.id ([] : GMap) hm1).symm
      simp [findAllNVVMAnnot, hm1, hmod, e1, e2, setA_setA, getOrInsertA, lookupA,
        postState, setA]
    | cons a pmtl =>
      simp only [List.isEmpty_cons, if_false, Bool.false_eq_true] at hmod
      have f1 : lookupA (setA st.cache m.id [(gv, a :: pmtl)]) m.id
          = some [(gv, a :: pmtl)] := lookupA_setA_self st.cache m.id [(gv, a :: pmtl)]
      have e1 := getOrInsertA_of_lookupA_eq _ m.id _ ([] : GMap) f1
      have f2 : lookupA [(gv, a :: pmtl)] gv = some (a :: pmtl) := by simp [lookupA]
      have e2 := getOrInsertA_of_lookupA_eq _ gv _ ([] : PropMap) f2
      have e3 := setA_of_lookupA_eq _ m.id _ f1
      simp only [findAllNVVMAnnot, hm1, hmod, postState, hm1, Option.getD_none] at *
      simp only [setA] at *
      simp [e1, e2, e3]
      cases hlp : lookupA (a :: pmtl) prop <;> simp [hlp]
  | some gm =>
    have hm2 : lookupA gm gv = none := by
      simpa [lookup2, hm1] using hfresh
    cases pm with
    | nil =>
      simp only [List.isEmpty_nil, if_true] at hmod
      have e1 := getOrInsertA_of_lookupA_eq st.cache m.id gm ([] : GMap) hm1
      have e2 := getOrInsertA_of_lookupA_none gm gv ([] : PropMap) hm2
      have e3 : gm ++ [(gv, ([] : PropMap))] = setA gm gv [] :=
        (setA_of_lookupA_none gm gv ([] : PropMap) hm2).symm
      simp [findAllNVVMAnnot, hm1, hm2, hmod, e1, e2, e3, postState, lookupA]
    | cons a pmtl =>
      simp only [List.isEmpty_cons, if_false, Bool.false_eq_true] at hmod
      have f1 : lookupA (setA st.cache m.id (setA gm gv (a :: pmtl))) m.id
          = some (setA gm gv (a :: pmtl)) := lookupA_setA_self st.cache m.id _
      have e1 := getOrInsertA_of_lookupA_eq _ m.id _ ([] : GMap) f1
      have f2 : lookupA (setA gm gv (a :: pmtl)) gv = some (a :: pmtl) :=
        lookupA_setA_self gm gv _
      have e2 := getOrInsertA_of_lookupA_eq _ gv _ ([] : PropMap) f2
      have e3 := setA_of_lookupA_eq _ m.id _ f1
      simp only [findAllNVVMAnnot, hm1, hm2, hmod, postState, Option.getD_some] at *
      simp [e1, e2, e3]
      cases hlp : lookupA (a :: pmtl) prop <;> simp [hlp]

theorem findAll_cached (m : Module) (gv : Nat) (prop : String) (st : AnnotationCache)
    (pm : PropMap)
    (hcached : lookup2 st.cache m.id gv = some pm) :
    findAllNVVMAnnot m gv prop st = Except.ok (lookupA pm prop, st) := by
  cases hm1 : lookupA st.cache m.id with
  | none => simp [lookup2, hm1] at hcached
  | some gm =>
    have hm2 : lookupA gm gv = some pm := by
      simpa [lookup2, hm1] using hcached
    have e1 := getOrInsertA_of_lookupA_eq st.cache m.id gm ([] : GMap) hm1
    have e2 := getOrInsertA_of_lookupA_eq gm gv pm ([] : PropMap) hm2
    have e3 := setA_of_lookupA_eq st.cache m.id gm hm1
    simp [findAllNVVMAnnot, hm1, hm2, e1, e2, e3]
    cases hlp : lookupA pm prop <;> simp [hlp]

theorem lookup2_postState (m : Module) (gv : Nat) (pm : PropMap) (st : AnnotationCache) :
    lookup2 (postState m gv pm st).cache m.id gv = some pm := by
  simp only [postState, lookup2, lookupA_setA_self]

/-- C1, counterexample.  On a module whose annotation list is empty, the
population scan for entity 5 produces an empty Property Map; contrary to the
claim, the lookup stores an empty Property Map for the entity (through the
`operator[]` chain of `findOneNVVMAnnotation`), and a second lookup finds it
cached and does not scan again (the scan counter stays at 1). -/
theorem claim_C1_counterexample :
    findOneNVVMAnnot ⟨0, some []⟩ 5 "kernel" ⟨[], 0⟩
      = Except.ok (none, ⟨[(0, [(5, [])])], 1⟩)
  ∧ lookup2 [(0, [(5, [])])] 0 5 = some []
  ∧ findOneNVVMAnnot ⟨0, some []⟩ 5 "kernel" ⟨[(0, [(5, [])])], 1⟩
      = Except.ok (none, ⟨[(0, [(5, [])])], 1⟩) :=
  ⟨rfl, rfl, rfl⟩

/-- C1, amended.  When the population scan over the module's named annotation
list produces an empty Property Map for an entity, `cacheAnnotationFromMD`
itself stores nothing, but the `operator[]` accesses of the same lookup then
insert an empty Property Map for the entity into the cache; consequently the
cache does contain an empty Property Map and future `lookup`/`lookupAll`
calls for that entity find it and do not scan again. -/
theorem claim_C1 (m : Module) (gv : Nat) (prop : String) (st : AnnotationCache)
    (hfresh : lookup2 st.cache m.id gv = none)
    (hscan : scanEntityM m gv = Except.ok []) :
    cacheAnnotationFromMD_mod m gv st
      = Except.ok { st with scanCount := st.scanCount + 1 }
  ∧ findOneNVVMAnnot m gv prop st = Except.ok (none, postState m gv [] st)
  ∧ lookup2 (postState m gv [] st).cache m.id gv = some []
  ∧ (postState m gv [] st).scanCount = st.scanCount + 1
  ∧ findOneNVVMAnnot m gv prop (postState m gv [] st)
      = Except.ok (none, postState m gv [] st)
  ∧ findAllNVVMAnnot m gv prop (postState m gv [] st)
      = Except.ok (none, postState m gv [] st) := by
  have h1 := cacheMod_of_scan m gv [] st hscan
  have h2 := findOne_of_scan m gv prop st [] hfresh hscan
  have h3 := lookup2_postState m gv [] st
  have h4 := findOne_cached m gv prop (postState m gv [] st) [] h3
  have h5 := findAll_cached m gv prop (postState m gv [] st) [] h3
  exact ⟨by simpa using h1, by simpa [lookupA] using h2, h3, rfl,
    by simpa [lookupA] using h4, by simpa [lookupA] using h5⟩

/-- C1, witness for the amended theorem. -/
theorem claim_C1_witness :
    findOneNVVMAnnot ⟨2, some []⟩ 7 "texture" (postState ⟨2, some []⟩ 7 [] ⟨[], 0⟩)
      = Except.ok (none, postState ⟨2, some []⟩ 7 [] ⟨[], 0⟩) :=
  (claim_C1 ⟨2, some []⟩ 7 "texture" ⟨[], 0⟩ rfl rfl).2.2.2.2.1

/-- C2.  `clearAnnotationCache` removes the module's cached entries, leaves
every other module's entries unchanged, is a total no-op when no entry for
the module exists, and after it runs a query for any entity of the module
performs a fresh population scan (the scan counter increases). -/
theorem claim_C2 (m : Module) (st : AnnotationCache) :
    lookupA (clearAnnotationCache m st).cache m.id = none
  ∧ (∀ mid, mid ≠ m.id →
      lookupA (clearAnnotationCache m st).cache mid = lookupA st.cache mid)
  ∧ (lookupA st.cache m.id = none → clearAnnotationCache m st = st)
  ∧ (∀ gv prop pm, scanEntityM m gv = Except.ok pm →
      findOneNVVMAnnot m gv prop (clearAnnotationCache m st)
        = Except.ok ((lookupA pm prop).map (fun vs => List.getD vs 0 0),
            postState m gv pm (clearAnnotationCache m st))
      ∧ (postState m gv pm (clearAnnotationCache m st)).scanCount = st.scanCount + 1) := by
  refine ⟨?_, ?_, ?_, ?_⟩
  · simpa [clearAnnotationCache] using lookupA_eraseA_self st.cache m.id
  · intro mid hmid
    simpa [clearAnnotationCache] using lookupA_eraseA_ne st.cache m.id mid hmid
  · intro h
    simp [clearAnnotationCache, eraseA_of_lookupA_none st.cache m.id h]
  · intro gv prop pm hscan
    have hfresh : lookup2 (clearAnnotationCache m st).cache m.id gv = none := by
      simp [clearAnnotationCache, lookup2, lookupA_eraseA_self]
    exact ⟨findOne_of_scan m gv prop (clearAnnotationCache m st) pm hfresh hscan, rfl⟩

/-- C2, witness: a module cached with one entity is invalidated, and the next
query re-scans (the scan counter moves from 3 to 4) and recovers the value. -/
theorem claim_C2_witness :
    findOneNVVMAnnot ⟨0, some [[MDOperand.global 1, MDOperand.str "kernel", MDOperand.int 1]]⟩
        1 "kernel"
        (clearAnnotationCache
          ⟨0, some [[MDOperand.global 1, MDOperand.str "kernel", MDOperand.int 1]]⟩
          ⟨[(0, [(1, [("kernel", [1])])])], 3⟩)
      = Except.ok (some 1,
          postState ⟨0, some [[MDOperand.global 1, MDOperand.str "kernel", MDOperand.int 1]]⟩
            1 [("kernel", [1])]
            (clearAnnotationCache
              ⟨0, some [[MDOperand.global 1, MDOperand.str "kernel", MDOperand.int 1]]⟩
              ⟨[(0, [(1, [("kernel", [1])])])], 3⟩))
  ∧ (postState ⟨0, some [[MDOperand.global 1, MDOperand.str "kernel", MDOperand.int 1]]⟩
        1 [("kernel", [1])]
        (clearAnnotationCache
          ⟨0, some [[MDOperand.global 1, MDOperand.str "kernel", MDOperand.int 1]]⟩
          ⟨[(0, [(1, [("kernel", [1])])])], 3⟩)).scanCount = 4 := by
  have h := (claim_C2 ⟨0, some [[MDOperand.global 1, MDOperand.str "kernel", MDOperand.int 1]]⟩
    ⟨[(0, [(1, [("kernel", [1])])])], 3⟩).2.2.2 1 "kernel" [("kernel", [1])] rfl
  exact ⟨by simpa [lookupA] using h.1, h.2⟩

/-- C3.  A lookup populated by the scan returns: for `lookupAll`, the full
value sequence of the property accumulated over the entity's records in
encounter order (absent when that sequence is empty), and for `lookup`, its
first element. -/
theorem claim_C3 (m : Module) (gv : Nat) (prop : String) (st : AnnotationCache) (pm : PropMap)
    (hfresh : lookup2 st.cache m.id gv = none)
    (hscan : scanEntityM m gv = Except.ok pm) :
    findAllNVVMAnnot m gv prop st
      = Except.ok (optAppend none (specLookupAll m gv prop), postState m gv pm st)
  ∧ findOneNVVMAnnot m gv prop st
      = Except.ok ((specLookupAll m gv prop).head?, postState m gv pm st) := by
  have hk := scanEntity_find m gv pm hscan prop
  have h1 := findAll_of_scan m gv prop st pm hfresh hscan
  have h2 := findOne_of_scan m gv prop st pm hfresh hscan
  rw [hk] at h1 h2
  refine ⟨h1, ?_⟩
  rw [h2]
  have hmap : (optAppend none (specLookupAll m gv prop)).map (fun vs => List.getD vs 0 0)
      = (specLookupAll m gv prop).head? := by
    cases hv : specLookupAll m gv prop with
    | nil => simp [optAppend]
    | cons a tl => simp [optAppend, List.getD]
  rw [hmap]

/-- C3, witness: the specification's own example — two successive records
recording ("maxntidx", 4) then ("maxntidx", 8) for the same entity yield
`lookupAll = [4, 8]` and `lookup = 4`. -/
theorem claim_C3_witness :
    findAllNVVMAnnot
        ⟨0, some [[MDOperand.global 1, MDOperand.str "maxntidx", MDOperand.int 4],
                  [MDOperand.global 1, MDOperand.str "maxntidx", MDOperand.int 8]]⟩
        1 "maxntidx" ⟨[], 0⟩
      = Except.ok (some [4, 8], ⟨[(0, [(1, [("maxntidx", [4, 8])])])], 1⟩)
  ∧ findOneNVVMAnnot
        ⟨0, some [[MDOperand.global 1, MDOperand.str "maxntidx", MDOperand.int 4],
                  [MDOperand.global 1, MDOperand.str "maxntidx", MDOperand.int 8]]⟩
        1 "maxntidx" ⟨[], 0⟩
      = Except.ok (some 4, ⟨[(0, [(1, [("maxntidx", [4, 8])])])], 1⟩) := by
  have h := claim_C3
    ⟨0, some [[MDOperand.global 1, MDOperand.str "maxntidx", MDOperand.int 4],
              [MDOperand.global 1, MDOperand.str "maxntidx", MDOperand.int 8]]⟩
    1 "maxntidx" ⟨[], 0⟩ [("maxntidx", [4, 8])] rfl rfl
  exact ⟨by exact h.1, by exact h.2⟩

/-- C4.  For a function whose module metadata records no "kernel" annotation,
`isKernelFunction` reports exactly whether the declared calling convention is
`PTX_Kernel`; in particular a function with neither the annotation nor that
convention reports false. -/
theorem claim_C4 (F : Function) (st : AnnotationCache) (pm : PropMap)
    (hfresh : lookup2 st.cache F.mod.id F.gid = none)
    (hscan : scanEntityM F.mod F.gid = Except.ok pm)
    (hno : specLookupAll F.mod F.gid "kernel" = []) :
    isKernelFunction F st
      = Except.ok (decide (F.callingConv = PTX_Kernel), postState F.mod F.gid pm st)
  ∧ (F.callingConv ≠ PTX_Kernel →
      isKernelFunction F st = Except.ok (false, postState F.mod F.gid pm st)) := by
  have hk : lookupA pm "kernel" = none := by
    rw [scanEntity_find F.mod F.gid pm hscan "kernel", hno, optAppend_nil]
  have h1 := findOne_of_scan F.mod F.gid "kernel" st pm hfresh hscan
  rw [hk] at h1
  constructor
  · simp [isKernelFunction, h1]
  · intro hcc
    simp [isKernelFunction, h1, hcc]

/-- C4, witness: a function with no "kernel" annotation and `PTX_Kernel`
calling convention is a kernel; with another convention it is not. -/
theorem claim_C4_witness :
    isKernelFunction ⟨1, ⟨0, some []⟩, PTX_Kernel, fun _ => none⟩ ⟨[], 0⟩
      = Except.ok (true, postState ⟨0, some []⟩ 1 [] ⟨[], 0⟩)
  ∧ isKernelFunction ⟨1, ⟨0, some []⟩, 0, fun _ => none⟩ ⟨[], 0⟩
      = Except.ok (false, postState ⟨0, some []⟩ 1 [] ⟨[], 0⟩) := by
  have h1 := (claim_C4 ⟨1, ⟨0, some []⟩, PTX_Kernel, fun _ => none⟩ ⟨[], 0⟩ [] rfl rfl rfl).1
  have h2 := (claim_C4 ⟨1, ⟨0, some []⟩, 0, fun _ => none⟩ ⟨[], 0⟩ [] rfl rfl rfl).2
    (by simp [PTX_Kernel])
  exact ⟨by simpa [PTX_Kernel] using h1, h2⟩

/-- C10.  For a function whose module metadata records a "kernel" annotation
with first value `v`, `isKernelFunction` returns exactly `v = 1`, whatever
the declared calling convention is (the convention is universally quantified
and does not appear in the result). -/
theorem claim_C10 (F : Function) (st : AnnotationCache) (pm : PropMap)
    (v : Nat) (vs : List Nat)
    (hfresh : lookup2 st.cache F.mod.id F.gid = none)
    (hscan : scanEntityM F.mod F.gid = Except.ok pm)
    (hk : specLookupAll F.mod F.gid "kernel" = v :: vs) :
    isKernelFunction F st
      = Except.ok (decide (v = 1), postState F.mod F.gid pm st) := by
  have hkk : lookupA pm "kernel" = some (v :: vs) := by
    rw [scanEntity_find F.mod F.gid pm hscan "kernel", hk, optAppend_cons]
    rfl
  have h1 := findOne_of_scan F.mod F.gid "kernel" st pm hfresh hscan
  rw [hkk] at h1
  simp [isKernelFunction, h1, List.getD]

/-- C10, witness: a "kernel" annotation of 0 forces `isKernelFunction` false
even though the function's calling convention is `PTX_Kernel`. -/
theorem claim_C10_witness :
    isKernelFunction
        ⟨1, ⟨0, some [[MDOperand.global 1, MDOperand.str "kernel", MDOperand.int 0]]⟩,
          PTX_Kernel, fun _ => none⟩ ⟨[], 0⟩
      = Except.ok (false,
          postState ⟨0, some [[MDOperand.global 1, MDOperand.str "kernel", MDOperand.int 0]]⟩
            1 [("kernel", [0])] ⟨[], 0⟩) := by
  have h := claim_C10
    ⟨1, ⟨0, some [[MDOperand.global 1, MDOperand.str "kernel", MDOperand.int 0]]⟩,
      PTX_Kernel, fun _ => none⟩ ⟨[], 0⟩ [("kernel", [0])] 0 [] rfl rfl rfl
  simpa using h

/-- C5.  Alignment resolution prefers the structured stack-alignment
attribute whenever it is set — for functions and call sites alike, and
whatever the legacy packed annotations say — and yields no constraint when
both sources are absent. -/
theorem claim_C5 :
    (∀ (F : Function) (Index : Nat) (st : AnnotationCache) (a : Nat),
      F.attrStackAlign Index = some a → getAlign F Index st = Except.ok (some a, st))
  ∧ (∀ (I : CallInst) (Index a : Nat),
      I.attrStackAlign Index = some a → getAlignCall I Index = some a)
  ∧ (∀ (F : Function) (Index : Nat) (st : AnnotationCache) (pm : PropMap),
      F.attrStackAlign Index = none →
      lookup2 st.cache F.mod.id F.gid = none →
      scanEntityM F.mod F.gid = Except.ok pm →
      specLookupAll F.mod F.gid "align" = [] →
      getAlign F Index st = Except.ok (none, postState F.mod F.gid pm st))
  ∧ (∀ (I : CallInst) (Index : Nat),
      I.attrStackAlign Index = none → I.callalign = none → getAlignCall I Index = none) := by
  refine ⟨?_, ?_, ?_, ?_⟩
  · intro F Index st a h
    simp [getAlign, h]
  · intro I Index a h
    simp [getAlignCall, h]
  · intro F Index st pm hattr hfresh hscan hno
    have ha : lookupA pm "align" = none := by
      rw [scanEntity_find F.mod F.gid pm hscan "align", hno, optAppend_nil]
    have h1 := findAll_of_scan F.mod F.gid "align" st pm hfresh hscan
    rw [ha] at h1
    simp [getAlign, hattr, h1]
  · intro I Index hattr hmd
    simp [getAlignCall, hattr, hmd]

/-- C5, witness: the specification's example — structured stack alignment 16
beats a legacy "align" record packing (index 0, alignment 8); and a call
site with neither source yields no constraint. -/
theorem claim_C5_witness :
    getAlign
        ⟨1, ⟨0, some [[MDOperand.global 1, MDOperand.str "align", MDOperand.int 8]]⟩,
          0, fun i => if i = 0 then some 16 else none⟩ 0 ⟨[], 0⟩
      = Except.ok (some 16, ⟨[], 0⟩)
  ∧ getAlignCall ⟨fun _ => none, none⟩ 0 = none := by
  have h1 := claim_C5.1
    ⟨1, ⟨0, some [[MDOperand.global 1, MDOperand.str "align", MDOperand.int 8]]⟩,
      0, fun i => if i = 0 then some 16 else none⟩ 0 ⟨[], 0⟩ 16 rfl
  have h2 := claim_C5.2.2.2 ⟨fun _ => none, none⟩ 0 rfl rfl
  exact ⟨h1, h2⟩

/-- C6.  Legacy packed alignment values decode as index `V / 2^16` (the high
bits) and alignment `V % 2^16` (the low 16 bits): the function-level "align"
scan is exhaustive — a match is found even after entries with larger decoded
indices — while the call-site "callalign" scan stops and returns absent as
soon as a decoded index exceeds the requested one, whatever follows. -/
theorem claim_C6 :
    (∀ (pre : List Nat) (V : Nat) (rest : List Nat) (Index : Nat),
      (∀ U ∈ pre, U / 65536 ≠ Index) → V / 65536 = Index →
      funcAlignScan (pre ++ V :: rest) Index = some (V % 65536))
  ∧ (∀ (pre : List MDOperand) (W : Nat) (rest : List MDOperand) (Index : Nat),
      (∀ U ∈ pre, ∀ w, extractInt U = some w → w / 65536 < Index) →
      Index < W / 65536 →
      callAlignScan (pre ++ MDOperand.int W :: rest) Index = none)
  ∧ (∀ (V : Nat) (rest : List MDOperand) (Index : Nat),
      V / 65536 = Index →
      callAlignScan (MDOperand.int V :: rest) Index = some (V % 65536)) := by
  have hshift : ∀ V : Nat, V >>> 16 = V / 65536 := by
    intro V
    rw [Nat.shiftRight_eq_div_pow]
  have hand : ∀ V : Nat, V &&& 65535 = V % 65536 := by
    intro V
    have h := Nat.and_pow_two_sub_one_eq_mod V 16
    norm_num at h
    exact h
  refine ⟨?_, ?_, ?_⟩
  · intro pre V rest Index hpre hV
    induction pre with
    | nil => simp [funcAlignScan, hshift, hand, hV]
    | cons U tl ih =>
      have hU : U / 65536 ≠ Index := hpre U (by simp)
      simp only [List.cons_append, funcAlignScan, hshift, hand]
      rw [if_neg hU]
      exact ih (fun W hW => hpre W (by simp [hW]))
  · intro pre W rest Index hpre hW
    induction pre with
    | nil =>
      have h1 : ¬ W / 65536 = Index := by omega
      simp only [List.nil_append, callAlignScan, extractInt, hshift]
      rw [if_neg h1, if_pos hW]
    | cons U tl ih =>
      cases hU : extractInt U with
      | some w =>
        have hw := hpre U (by simp) w hU
        have h1 : ¬ w / 65536 = Index := by omega
        have h2 : ¬ Index < w / 65536 := by omega
        simp only [List.cons_append, callAlignScan, hU, hshift]
        rw [if_neg h1, if_neg h2]
        exact ih (fun X hX => hpre X (by simp [hX]))
      | none =>
        simp only [List.cons_append, callAlignScan, hU]
        exact ih (fun X hX => hpre X (by simp [hX]))
  · intro V rest Index hV
    simp [callAlignScan, extractInt, hshift, hand, hV]

/-- C6, witness: with requested index 1, the function-level list
[131076, 65544] (decoded indices 2 then 1) still finds alignment 8, while
the call-site scan on the same packed values stops at index 2 and yields
absent; a direct hit decodes the low 16 bits. -/
theorem claim_C6_witness :
    funcAlignScan [131076, 65544] 1 = some 8
  ∧ callAlignScan [MDOperand.int 131076, MDOperand.int 65544] 1 = none
  ∧ callAlignScan [MDOperand.int 65544] 1 = some 8 := by
  refine ⟨?_, ?_, ?_⟩
  · have h := claim_C6.1 [131076] 65544 [] 1 (by decide) (by norm_num)
    simpa using h
  · have h := claim_C6.2.1 [] 131076 [MDOperand.int 65544] 1 (by simp) (by norm_num)
    simpa using h
  · have h := claim_C6.2.2 65544 [] 1 (by norm_num)
    simpa using h

/-- C7, counterexample.  For the argument at position 0 of a function whose
"rdoimage" annotation records the value 2, the annotation is found (the
`lookupAll` underneath returns [2]) and the recorded value is not 1, yet
`isImageReadOnly` neither fails an assertion nor returns true: it performs a
plain membership test of the argument position and returns false. -/
theorem claim_C7_counterexample :
    findAllNVVMAnnot ⟨7, some [[MDOperand.global 1, MDOperand.str "rdoimage", MDOperand.int 2]]⟩
        1 "rdoimage" ⟨[], 0⟩
      = Except.ok (some [2], ⟨[(7, [(1, [("rdoimage", [2])])])], 1⟩)
  ∧ isImageReadOnly
        (Value.arg 1 ⟨7, some [[MDOperand.global 1, MDOperand.str "rdoimage", MDOperand.int 2]]⟩ 0)
        ⟨[], 0⟩
      = Except.ok (false, ⟨[(7, [(1, [("rdoimage", [2])])])], 1⟩) :=
  ⟨rfl, rfl⟩

/-- C7, amended.  The global-value predicates (`isTexture`, `isSurface`,
`isManaged`, and `isSampler` on a global) assert that a found annotation value
is exactly 1 — fatal otherwise in assertion-enabled builds — and return true;
absence yields a normal false.  The argument predicates (`isSampler` on an
argument, `isImageReadOnly`, `isImageWriteOnly`, `isImageReadWrite`) never
assert: a found annotation yields whether the argument's position occurs in
the recorded value list, and absence yields false. -/
theorem claim_C7 (gid argNo : Nat) (m : Module) (st : AnnotationCache) (pm : PropMap)
    (hfresh : lookup2 st.cache m.id gid = none)
    (hscan : scanEntityM m gid = Except.ok pm) :
    (∀ v vs, lookupA pm "texture" = some (v :: vs) →
      isTexture (Value.global gid m) st
        = if v = 1 then Except.ok (true, postState m gid pm st) else Except.error ())
  ∧ (lookupA pm "texture" = none →
      isTexture (Value.global gid m) st = Except.ok (false, postState m gid pm st))
  ∧ (∀ v vs, lookupA pm "surface" = some (v :: vs) →
      isSurface (Value.global gid m) st
        = if v = 1 then Except.ok (true, postState m gid pm st) else Except.error ())
  ∧ (lookupA pm "surface" = none →
      isSurface (Value.global gid m) st = Except.ok (false, postState m gid pm st))
  ∧ (∀ v vs, lookupA pm "managed" = some (v :: vs) →
      isManaged (Value.global gid m) st
        = if v = 1 then Except.ok (true, postState m gid pm st) else Except.error ())
  ∧ (lookupA pm "managed" = none →
      isManaged (Value.global gid m) st = Except.ok (false, postState m gid pm st))
  ∧ (∀ v vs, lookupA pm "sampler" = some (v :: vs) →
      isSampler (Value.global gid m) st
        = if v = 1 then Except.ok (true, postState m gid pm st) else Except.error ())
  ∧ (lookupA pm "sampler" = none →
      isSampler (Value.global gid m) st = Except.ok (false, postState m gid pm st))
  ∧ (∀ vs, lookupA pm "sampler" = some vs →
      isSampler (Value.arg gid m argNo) st
        = Except.ok (vs.contains argNo, postState m gid pm st))
  ∧ (lookupA pm "sampler" = none →
      isSampler (Value.arg gid m argNo) st = Except.ok (false, postState m gid pm st))
  ∧ (∀ vs, lookupA pm "rdoimage" = some vs →
      isImageReadOnly (Value.arg gid m argNo) st
        = Except.ok (vs.contains argNo, postState m gid pm st))
  ∧ (lookupA pm "rdoimage" = none →
      isImageReadOnly (Value.arg gid m argNo) st
        = Except.ok (false, postState m gid pm st))
  ∧ (∀ vs, lookupA pm "wroimage" = some vs →
      isImageWriteOnly (Value.arg gid m argNo) st
        = Except.ok (vs.contains argNo, postState m gid pm st))
  ∧ (lookupA pm "wroimage" = none →
      isImageWriteOnly (Value.arg gid m argNo) st
        = Except.ok (false, postState m gid pm st))
  ∧ (∀ vs, lookupA pm "rdwrimage" = some vs →
      isImageReadWrite (Value.arg gid m argNo) st
        = Except.ok (vs.contains argNo, postState m gid pm st))
  ∧ (lookupA pm "rdwrimage" = none →
      isImageReadWrite (Value.arg gid m argNo) st
        = Except.ok (false, postState m gid pm st)) := by
  refine ⟨?_, ?_, ?_, ?_, ?_, ?_, ?_, ?_, ?_, ?_, ?_, ?_, ?_, ?_, ?_, ?_⟩
  · intro v vs hv
    have h1 := findOne_of_scan m gid "texture" st pm hfresh hscan
    rw [hv] at h1
    by_cases hv1 : v = 1 <;> simp [isTexture, h1, hv1, List.getD]
  · intro hv
    have h1 := findOne_of_scan m gid "texture" st pm hfresh hscan
    rw [hv] at h1
    simp [isTexture, h1]
  · intro v vs hv
    have h1 := findOne_of_scan m gid "surface" st pm hfresh hscan
    rw [hv] at h1
    by_cases hv1 : v = 1 <;> simp [isSurface, h1, hv1, List.getD]
  · intro hv
    have h1 := findOne_of_scan m gid "surface" st pm hfresh hscan
    rw [hv] at h1
    simp [isSurface, h1]
  · intro v vs hv
    have h1 := findOne_of_scan m gid "managed" st pm hfresh hscan
    rw [hv] at h1
    by_cases hv1 : v = 1 <;> simp [isManaged, h1, hv1, List.getD]
  · intro hv
    have h1 := findOne_of_scan m gid "managed" st pm hfresh hscan
    rw [hv] at h1
    simp [isManaged, h1]
  · intro v vs hv
    have h1 := findOne_of_scan m gid "sampler" st pm hfresh hscan
    rw [hv] at h1
    by_cases hv1 : v = 1 <;> simp [isSampler, h1, hv1, List.getD]
  · intro hv
    have h1 := findOne_of_scan m gid "sampler" st pm hfresh hscan
    rw [hv] at h1
    simp [isSampler, h1]
  · intro vs hv
    have h1 := findAll_of_scan m gid "sampler" st pm hfresh hscan
    rw [hv] at h1
    simp [isSampler, h1]
  · intro hv
    have h1 := findAll_of_scan m gid "sampler" st pm hfresh hscan
    rw [hv] at h1
    simp [isSampler, h1]
  · intro vs hv
    have h1 := findAll_of_scan m gid "rdoimage" st pm hfresh hscan
    rw [hv] at h1
    simp [isImageReadOnly, h1]
  · intro hv
    have h1 := findAll_of_scan m gid "rdoimage" st pm hfresh hscan
    rw [hv] at h1
    simp [isImageReadOnly, h1]
  · intro vs hv
    have h1 := findAll_of_scan m gid "wroimage" st pm hfresh hscan
    rw [hv] at h1
    simp [isImageWriteOnly, h1]
  · intro hv
    have h1 := findAll_of_scan m gid "wroimage" st pm hfresh hscan
    rw [hv] at h1
    simp [isImageWriteOnly, h1]
  · intro vs hv
    have h1 := findAll_of_scan m gid "rdwrimage" st pm hfresh hscan
    rw [hv] at h1
    simp [isImageReadWrite, h1]
  · intro hv
    have h1 := findAll_of_scan m gid "rdwrimage" st pm hfresh hscan
    rw [hv] at h1
    simp [isImageReadWrite, h1]

/-- C7, witness for the amended theorem: a global with "texture" = 1 is a
texture; a global with no annotation at all is not; an argument at position 0
recorded in its function's "rdoimage" list is a read-only image. -/
theorem claim_C7_witness :
    isTexture (Value.global 1 ⟨0, some [[MDOperand.global 1, MDOperand.str "texture", MDOperand.int 1]]⟩) ⟨[], 0⟩
      = Except.ok (true,
          postState ⟨0, some [[MDOperand.global 1, MDOperand.str "texture", MDOperand.int 1]]⟩
            1 [("texture", [1])] ⟨[], 0⟩)
  ∧ isTexture (Value.global 3 ⟨0, some []⟩) ⟨[], 0⟩
      = Except.ok (false, postState ⟨0, some []⟩ 3 [] ⟨[], 0⟩)
  ∧ isImageReadOnly
        (Value.arg 1 ⟨0, some [[MDOperand.global 1, MDOperand.str "rdoimage", MDOperand.int 0]]⟩ 0)
        ⟨[], 0⟩
      = Except.ok (true,
          postState ⟨0, some [[MDOperand.global 1, MDOperand.str "rdoimage", MDOperand.int 0]]⟩
            1 [("rdoimage", [0])] ⟨[], 0⟩) := by
  have h1 := (claim_C7 1 0 ⟨0, some [[MDOperand.global 1, MDOperand.str "texture", MDOperand.int 1]]⟩
    ⟨[], 0⟩ [("texture", [1])] rfl rfl).1 1 [] rfl
  have h2 := (claim_C7 3 0 ⟨0, some []⟩ ⟨[], 0⟩ [] rfl rfl).2.1 rfl
  have h3 := (claim_C7 1 0 ⟨0, some [[MDOperand.global 1, MDOperand.str "rdoimage", MDOperand.int 0]]⟩
    ⟨[], 0⟩ [("rdoimage", [0])] rfl rfl).2.2.2.2.2.2.2.2.2.2.1 [0] rfl
  exact ⟨by simpa using h1, h2, by simpa using h3⟩

/-- C8.  The record-level Metadata Reader fails its structural assertions
exactly when the operand count is even, a name position (odd positions from
1) is not a metadata string, or a value position (even positions from 2) is
not a constant integer; on a well-formed record it succeeds and appends each
pair's integer value, in order, to the output sequence of its property name. -/
theorem claim_C8 (md : List MDOperand) (retval : PropMap) :
    (cacheAnnotationFromMD_rec md retval = Except.error ()
      ↔ (md.length % 2 = 0
          ∨ (∃ i op, i % 2 = 1 ∧ md[i]? = some op ∧ isStrOp op = false)
          ∨ (∃ i op, i % 2 = 0 ∧ 2 ≤ i ∧ md[i]? = some op ∧ extractInt op = none)))
  ∧ (∀ m', cacheAnnotationFromMD_rec md retval = Except.ok m' →
      ∀ k, lookupA m' k = optAppend (lookupA retval k) (valuesOf k (List.drop 1 md))) := by
  constructor
  · by_cases hlen : md.length % 2 = 1
    · have hdrop : (List.drop 1 md).length % 2 = 0 := by
        rw [List.length_drop]
        omega
      have hwp := wfPairs_false_iff (List.drop 1 md) hdrop
      have hrp := readPairs_error_iff (List.drop 1 md) retval
      constructor
      · intro herr
        have h1 : readPairs (List.drop 1 md) retval = Except.error () := by
          simpa [cacheAnnotationFromMD_rec, hlen] using herr
        rcases hwp.mp (hrp.mp h1) with ⟨j, op, hj, hget, hbad⟩ | ⟨j, op, hj, hget, hbad⟩
        · refine Or.inr (Or.inl ⟨j + 1, op, by omega, ?_, hbad⟩)
          rw [List.getElem?_drop] at hget
          simpa [Nat.add_comm] using hget
        · refine Or.inr (Or.inr ⟨j + 1, op, by omega, by omega, ?_, hbad⟩)
          rw [List.getElem?_drop] at hget
          simpa [Nat.add_comm] using hget
      · intro hr
        rcases hr with h0 | ⟨i, op, hi, hget, hbad⟩ | ⟨i, op, hi, h2i, hget, hbad⟩
        · omega
        · have hj : (List.drop 1 md)[i - 1]? = some op := by
            rw [List.getElem?_drop]
            have hi1 : 1 + (i - 1) = i := by omega
            rw [hi1]
            exact hget
          have hwf : wfPairs (List.drop 1 md) = false :=
            hwp.mpr (Or.inl ⟨i - 1, op, by omega, hj, hbad⟩)
          have herr2 := hrp.mpr hwf
          rw [List.drop_one] at herr2
          simp [cacheAnnotationFromMD_rec, hlen, herr2]
        · have hj : (List.drop 1 md)[i - 1]? = some op := by
            rw [List.getElem?_drop]
            have hi1 : 1 + (i - 1) = i := by omega
            rw [hi1]
            exact hget
          have hwf : wfPairs (List.drop 1 md) = false :=
            hwp.mpr (Or.inr ⟨i - 1, op, by omega, hj, hbad⟩)
          have herr2 := hrp.mpr hwf
          rw [List.drop_one] at herr2
          simp [cacheAnnotationFromMD_rec, hlen, herr2]
    · have h0 : md.length % 2 = 0 := by omega
      simp [cacheAnnotationFromMD_rec, hlen, h0]
  · intro m' hok k
    have hlen : md.length % 2 = 1 := by
      by_contra hc
      simp [cacheAnnotationFromMD_rec, hc] at hok
    have hrp : readPairs (List.drop 1 md) retval = Except.ok m' := by
      simpa [cacheAnnotationFromMD_rec, hlen] using hok
    exact readPairs_find (List.drop 1 md) retval m' hrp k

/-- C8, witness: a well-formed record appends its value under its property
name, and a record with an even operand count fails the assertion. -/
theorem claim_C8_witness :
    lookupA [("kernel", [1])] "kernel"
      = optAppend (lookupA ([] : PropMap) "kernel")
          (valuesOf "kernel"
            (List.drop 1 [MDOperand.global 0, MDOperand.str "kernel", MDOperand.int 1]))
  ∧ cacheAnnotationFromMD_rec [MDOperand.global 0, MDOperand.int 2] [] = Except.error () := by
  constructor
  · exact (claim_C8 [MDOperand.global 0, MDOperand.str "kernel", MDOperand.int 1] []).2
      [("kernel", [1])] rfl "kernel"
  · exact (claim_C8 [MDOperand.global 0, MDOperand.int 2] []).1.mpr (Or.inl rfl)

/-- C9.  A record whose subject resolves to null, or to an entity other than
the requested one, is silently skipped by the population scan: deleting it
from the record list changes nothing (so it contributes to no Property Map),
and the scan neither fails nor crashes because of it, wherever it sits. -/
theorem claim_C9 (pre post : List (List MDOperand)) (r : List MDOperand) (gv : Nat)
    (i : Nat) (acc : PropMap)
    (h : subjectOf r = none ∨ ∃ e, subjectOf r = some e ∧ e ≠ gv) :
    scanRecords (pre ++ r :: post) gv acc = scanRecords (pre ++ post) gv acc
  ∧ scanEntityM ⟨i, some (pre ++ r :: post)⟩ gv = scanEntityM ⟨i, some (pre ++ post)⟩ gv := by
  have hmain : ∀ acc2, scanRecords (pre ++ r :: post) gv acc2
      = scanRecords (pre ++ post) gv acc2 := by
    induction pre with
    | nil =>
      intro acc2
      rcases h with hn | ⟨e, he, hne⟩
      · simp [scanRecords, hn]
      · simp [scanRecords, he, hne]
    | cons hd tl ih =>
      intro acc2
      simp only [List.cons_append, scanRecords]
      cases hs : subjectOf hd with
      | none => exact ih acc2
      | some e =>
        by_cases he : e = gv
        · simp only [he, if_pos rfl]
          cases hrec : cacheAnnotationFromMD_rec hd acc2 with
          | error er => rfl
          | ok acc3 => exact ih acc3
        · simp only [if_neg he]
          exact ih acc2
  exact ⟨hmain acc, by simp [scanEntityM, hmain []]⟩

/-- C9, witness: a null-subject record and a record for a different entity
both vanish from the scan of entity 1. -/
theorem claim_C9_witness :
    scanRecords [[MDOperand.null],
        [MDOperand.global 1, MDOperand.str "kernel", MDOperand.int 1]] 1 []
      = scanRecords [[MDOperand.global 1, MDOperand.str "kernel", MDOperand.int 1]] 1 []
  ∧ scanEntityM ⟨0, some [[MDOperand.global 2, MDOperand.str "kernel", MDOperand.int 1]]⟩ 1
      = scanEntityM ⟨0, some []⟩ 1 := by
  constructor
  · have h := (claim_C9 [] [[MDOperand.global 1, MDOperand.str "kernel", MDOperand.int 1]]
      [MDOperand.null] 1 0 [] (Or.inl rfl)).1
    simpa using h
  · have h := (claim_C9 [] [] [MDOperand.global 2, MDOperand.str "kernel", MDOperand.int 1]
      1 0 [] (Or.inr ⟨2, rfl, by norm_num⟩)).2
    simpa using h

end NVPTX
